import Mathlib

/-!
Shallow embedding of the document-numbering and line-item financial core of
the flora_textileBI back-office application (src/app.py), together with the
paginated-listing, amount-in-words and barcode-sheet helpers that the
specification describes.

Modelling conventions:
* Real-number arithmetic that Python performs on IEEE floats is modelled
  exactly over `ℚ`; the properties under study concern the algebraic form of
  the computations, not floating-point rounding.
* Form values are `String`s (a missing form key is `Option.none`); all
  character-level work is done on `List Char` so that every definition
  reduces in the kernel.  Parsed literals are produced with `Rat.divInt`,
  which is definitionally equal to the corresponding quotient.
* A Python expression that can raise is modelled with `Option`: `none` is a
  raised exception, `some v` a normal result.
* Database tables touched by the modelled routines are passed and returned
  explicitly (a table is a list of rows).
-/

namespace FloraBI

/-- Leading- and trailing-whitespace trim on a character list; models
Python `str.strip()` (the application only ever strips ASCII whitespace). -/
def trimChars (cs : List Char) : List Char :=
  ((cs.dropWhile Char.isWhitespace).reverse.dropWhile Char.isWhitespace).reverse

/-- Numeric value of a list of decimal digit characters, most significant
first. -/
def digitsVal (cs : List Char) : ℕ :=
  cs.foldl (fun a c => a * 10 + (c.toNat - 48)) 0

/-- Core of the Python `float()` literal parser on the decimal forms this
application's forms produce: `digits`, `digits.digits`, `digits.` or
`.digits` (exponent notation and the special values `inf`/`nan` never occur
in these inputs and are omitted).  `none` models `float()` raising
`ValueError`; in particular any string containing a comma is rejected,
exactly as Python `float()` rejects it. -/
def pyFloatCore (cs : List Char) : Option ℚ :=
  let intPart := cs.takeWhile Char.isDigit
  let rest := cs.dropWhile Char.isDigit
  match rest with
  | [] => if intPart.isEmpty then none else some (Rat.divInt (digitsVal intPart) 1)
  | '.' :: frac =>
      if frac.all Char.isDigit && !(intPart.isEmpty && frac.isEmpty) then
        some (Rat.divInt (digitsVal intPart * 10 ^ frac.length + digitsVal frac)
          (10 ^ frac.length))
      else none
  | _ => none

/-- Python `float(s)` on a string: strips whitespace, allows one leading
sign, then parses a decimal literal.  `none` models a raised `ValueError`. -/
def pyFloat (s : String) : Option ℚ :=
  match trimChars s.toList with
  | '+' :: rest => pyFloatCore rest
  | '-' :: rest => (pyFloatCore rest).map (fun q => -q)
  | cs => pyFloatCore cs

/-- Replace every comma by a dot; models `str.replace(',', '.')`. -/
def commaToDot (s : String) : String :=
  String.mk (s.toList.map (fun c => if c = ',' then '.' else c))

/-- Models `safe_float` (src/app.py lines 1601-1608, repeated verbatim at
2089-2095): `None` or blank input gives `0.0`; otherwise every comma is
replaced by a dot and the string is parsed with `float()`, any failure being
coerced to `0.0`. -/
def safe_float (val : Option String) : ℚ :=
  match val with
  | none => 0
  | some s =>
      if trimChars s.toList = [] then 0
      else (pyFloat (commaToDot s)).getD 0

/-- Models `float(s or 0)` as used on each line field in `save_invoice`
(src/app.py 1970-1972): an empty string is coerced to `0.0`, any other
string is parsed with bare `float()`, raising (`none`) on failure. -/
def float_or_zero (s : String) : Option ℚ :=
  if s = "" then some 0 else pyFloat s

/-- Models the sales-side `calculate_line` (src/app.py 1610-1617): returns
`(qty, rate, disc, line_total)` with
`line_total = max(qty*rate*(1 - disc/100), 0)`. -/
def calculate_line (qty rate disc : Option String) : ℚ × ℚ × ℚ × ℚ :=
  let q := safe_float qty
  let r := safe_float rate
  let d := safe_float disc
  let base := q * r
  let line_total := max (base * (1 - d / 100)) 0
  (q, r, d, line_total)

/-- Models the purchase-side `calculate_line` (src/app.py 2098-2109):
returns `(qty, rate, disc, gst, net, tax, line_total)` with
`net = max(qty*rate - disc, 0)`, `tax = net*(gst/100)`,
`line_total = net + tax`. -/
def calculate_line_po (qty rate disc gst : Option String) :
    ℚ × ℚ × ℚ × ℚ × ℚ × ℚ × ℚ :=
  let q := safe_float qty
  let r := safe_float rate
  let d := safe_float disc
  let g := safe_float gst
  let base := q * r
  let net := max (base - d) 0
  let tax := net * (g / 100)
  let line_total := net + tax
  (q, r, d, g, net, tax, line_total)

/-- One submitted sales-order (or sales-invoice) form line: the parallel
arrays `item_id[]`, `qty[]`, `rate[]`, `discount[]` zipped into records. -/
structure SalesRaw where
  item_id : String
  qty : String
  rate : String
  discount : String
deriving DecidableEq, Repr

/-- One persisted `sales_order_items` (or `sales_invoice_items`) row. -/
structure SalesRow where
  item_id : String
  qty : ℚ
  rate : ℚ
  discount : ℚ
  line_total : ℚ
deriving DecidableEq, Repr

/-- Models the line-insertion loop of `salesorder_new` (src/app.py
1730-1738) and `salesorder_edit` (1782-1790).  A line whose `item_id` is
empty (falsy) is skipped before any call is made.  For a non-empty line
the loop executes `calculate_line(qtys[i], rates[i], discounts[i])`; by
the time any request runs, the module has rebound the global name
`calculate_line` to the later four-parameter purchase-side definition
(src/app.py 2098), so this three-argument call raises `TypeError`,
modelled by `none`.  The three-parameter sales definition (src/app.py
1610, embedded above as `calculate_line`) is shadowed and unreachable
from this loop. -/
def so_items_loop : List SalesRaw → ℚ → List SalesRow → Option (ℚ × List SalesRow)
  | [], total, rows => some (total, rows)
  | l :: ls, total, rows =>
      if l.item_id = "" then so_items_loop ls total rows
      else none

/-- Persisted sales-order header totals after step 5 of `salesorder_new`
(src/app.py 1741): both `total` and `grand_total` are set to the
accumulated total. -/
structure SOHeader where
  total : ℚ
  grand_total : ℚ
deriving DecidableEq, Repr

/-- Models the create/edit path of a sales order as far as its persisted
totals and line rows are concerned (src/app.py 1729-1741 and 1779-1796):
the line loop runs with `total = 0` on an empty (or freshly emptied) line
table; if it completes, the header is updated with
`total = grand_total = total` and the accumulated rows are the persisted
lines.  `none` models the `TypeError` raised on the first line with a
non-empty item reference (see `so_items_loop`); the request then fails
before `db.commit()` (src/app.py 1742), so nothing is persisted. -/
def salesorder_save (lines : List SalesRaw) : Option (SOHeader × List SalesRow) :=
  (so_items_loop lines 0 []).map (fun r => (⟨r.1, r.1⟩, r.2))

/-- One submitted purchase-order form line. -/
structure PORaw where
  item_id : String
  qty : String
  rate : String
  discount : String
  gst_rate : String
deriving DecidableEq, Repr

/-- One persisted `purchase_order_items` row. -/
structure PORow where
  item_id : String
  qty : ℚ
  rate : ℚ
  discount : ℚ
  gst_rate : ℚ
  net : ℚ
  tax : ℚ
  line_total : ℚ
deriving DecidableEq, Repr

/-- Models the line-insertion loop of `po_new` (src/app.py 2246-2259) and
`po_edit` (2305-2318): empty `item_id` lines are skipped; otherwise the
purchase-side `calculate_line` runs and `total += net`,
`tax_total += tax`, `grand_total += line_total`. -/
def po_items_loop : List PORaw → ℚ × ℚ × ℚ → List PORow → (ℚ × ℚ × ℚ) × List PORow
  | [], acc, rows => (acc, rows)
  | l :: ls, acc, rows =>
      if l.item_id = "" then po_items_loop ls acc rows
      else
        let c := calculate_line_po (some l.qty) (some l.rate) (some l.discount)
          (some l.gst_rate)
        po_items_loop ls (acc.1 + c.2.2.2.2.1, acc.2.1 + c.2.2.2.2.2.1, acc.2.2 + c.2.2.2.2.2.2)
          (rows ++ [⟨l.item_id, c.1, c.2.1, c.2.2.1, c.2.2.2.1,
                     c.2.2.2.2.1, c.2.2.2.2.2.1, c.2.2.2.2.2.2⟩])

/-- Persisted purchase-order header totals (src/app.py 2261-2264). -/
structure POHeader where
  total : ℚ
  tax_total : ℚ
  grand_total : ℚ
deriving DecidableEq, Repr

/-- Models the create/edit path of a purchase order as far as its
persisted totals and line rows are concerned (src/app.py 2225-2264 and
2302-2325). -/
def po_save (lines : List PORaw) : POHeader × List PORow :=
  let r := po_items_loop lines (0, 0, 0) []
  (⟨r.1.1, r.1.2.1, r.1.2.2⟩, r.2)

/-- Models the line loop of `save_invoice` (src/app.py 1969-1976): every
submitted line is parsed with bare `float(x or 0)` (which can raise,
modelled by `none`), its `line_total = max(qty*rate*(1-disc/100), 0)` is
added to the total, and the line is kept regardless of whether its
`item_id` is empty. -/
def inv_items_loop : List SalesRaw → ℚ → List SalesRow → Option (ℚ × List SalesRow)
  | [], total, rows => some (total, rows)
  | l :: ls, total, rows => do
      let q ← float_or_zero l.qty
      let r ← float_or_zero l.rate
      let d ← float_or_zero l.discount
      let base := q * r
      let lt := max (base * (1 - d / 100)) 0
      inv_items_loop ls (total + lt) (rows ++ [⟨l.item_id, q, r, d, lt⟩])

/-- Models `save_invoice` (src/app.py 1954-1999) as far as its persisted
totals and line rows are concerned: the line loop runs, then the header is
written with `total = grand_total = total` and exactly the accumulated
line list is inserted. -/
def save_invoice_lines (lines : List SalesRaw) : Option (SOHeader × List SalesRow) :=
  (inv_items_loop lines 0 []).map (fun r => (⟨r.1, r.1⟩, r.2))

/-- Models the invoice-number assignment of `save_invoice` (src/app.py
1958): `form.get('invoice_no') or f"INV{int(datetime.now().timestamp())}"`.
A missing or empty submitted number is replaced by `INV` followed by the
current Unix timestamp in whole seconds; anything else is kept verbatim. -/
def invoice_no_assign (submitted : Option String) (now_ts : ℕ) : String :=
  match submitted with
  | none => "INV" ++ String.mk (Nat.toDigits 10 now_ts)
  | some s => if s = "" then "INV" ++ String.mk (Nat.toDigits 10 now_ts) else s

/-- `hasPfx p s` tests whether the character list `s` starts with `p`;
models the SQL pattern `LIKE 'P%'` used by the number generator (the
generated patterns contain no other wildcard characters). -/
def hasPfx : List Char → List Char → Bool
  | [], _ => true
  | _ :: _, [] => false
  | p :: ps, c :: cs => p == c && hasPfx ps cs

/-- Models Python `f"{n:05d}"` for a nonnegative `n`: the decimal digits of
`n`, left-padded with zeros to width 5 (longer numbers are kept whole). -/
def pad5 (n : ℕ) : List Char :=
  let s := Nat.toDigits 10 n
  List.replicate (5 - s.length) '0' ++ s

/-- The day pattern `f"SO{today_str}-"` of `salesorder_new`
(src/app.py 1720). -/
def soPfx (d : List Char) : List Char := 'S' :: 'O' :: (d ++ ['-'])

/-- Models the `COUNT(*) ... WHERE so_no LIKE 'SO<date>-%'` query of
`salesorder_new` (src/app.py 1716-1720) over a table of `so_no` values. -/
def so_count_today (db : List (List Char)) (d : List Char) : ℕ :=
  (db.filter (fun no => hasPfx (soPfx d) no)).length

/-- Models the numbering steps 1-3 of `salesorder_new` (src/app.py
1705-1726): a placeholder row with empty `so_no` is inserted first, the
rows matching today's pattern are counted, and the placeholder is updated
to `SO<today>-<count+1, zero-padded to 5>`.  Returns the assigned number
and the resulting `so_no` column of the table. -/
def salesorder_new_no (db : List (List Char)) (d : List Char) :
    List Char × List (List Char) :=
  let db1 := db ++ [[]]
  let cnt := so_count_today db1 d
  let no := soPfx d ++ pad5 (cnt + 1)
  (no, db ++ [no])

/-- Models the page count of `customer_list` (src/app.py 727) and
`items_list` (1096): `max(1, -(-total // per_page))`, Python floor
division. -/
def customer_pages (total per_page : ℕ) : ℤ :=
  max 1 (-(Int.fdiv (-(total : ℤ)) (per_page : ℤ)))

/-- Models the page count of `supplier_list` (src/app.py 855), and the
equivalent plain-ceiling forms of `salesorder_list` (1672),
`salesinvoice_list` (1920) and `po_list` (2156):
`(total + per_page - 1) // per_page` with no minimum. -/
def supplier_pages (total per_page : ℕ) : ℤ :=
  Int.fdiv ((total : ℤ) + (per_page : ℤ) - 1) (per_page : ℤ)

/-- Models the `LIMIT per_page OFFSET (page-1)*per_page` row fetch used by
every entity listing; SQLite treats a negative `OFFSET` the same as 0,
hence the clamp. -/
def fetch_page {α : Type} (rows : List α) (page : ℤ) (per_page : ℕ) : List α :=
  (rows.drop (max ((page - 1) * (per_page : ℤ)) 0).toNat).take per_page

/-- The `ones` word table of `_inr_number_to_words` (src/app.py 58-59). -/
def onesWords : List String :=
  ["zero", "one", "two", "three", "four", "five", "six", "seven", "eight",
   "nine", "ten", "eleven", "twelve", "thirteen", "fourteen", "fifteen",
   "sixteen", "seventeen", "eighteen", "nineteen"]

/-- The `tens` word table of `_inr_number_to_words` (src/app.py 60). -/
def tensWords : List String :=
  ["", "", "twenty", "thirty", "forty", "fifty", "sixty", "seventy",
   "eighty", "ninety"]

/-- Python `str.strip()` on a `String`. -/
def trimStr (s : String) : String := String.mk (trimChars s.toList)

/-- `" ".join parts` on nonempty parts lists. -/
def joinSp : List String → String
  | [] => ""
  | [x] => x
  | x :: xs => x ++ " " ++ joinSp xs

/-- Models the inner `two_digits` of `_inr_number_to_words` (src/app.py
62-66); its argument is always in `[0, 100)` (a floored remainder). -/
def two_digits (num : ℕ) : String :=
  if num < 20 then onesWords.getD num ""
  else
    let t := num / 10
    let o := num % 10
    trimStr ((tensWords.getD t "") ++ (if o ≠ 0 then " " ++ onesWords.getD o "" else ""))

/-- Models the inner `three_digits` of `_inr_number_to_words` (src/app.py
68-75); its argument is always in `[0, 1000)`. -/
def three_digits (num : ℕ) : String :=
  let h := num / 100
  let rem := num % 100
  let parts := (if h ≠ 0 then [onesWords.getD h "" ++ " hundred"] else []) ++
               (if rem ≠ 0 then [two_digits rem] else [])
  if parts.isEmpty then "zero" else joinSp parts

/-- Models the recursive `_inr_number_to_words` (src/app.py 57-93).  The
Python function recurses on the crore/lakh/thousand quotients with
floored `divmod` semantics (`Int.fdiv`/`Int.fmod`); it is not structurally
terminating (on negative input the crore quotient stays negative), so the
recursion is given explicit fuel and `none` models non-termination
(a Python `RecursionError`). -/
def inrNum : ℕ → ℤ → Option String
  | 0, _ => none
  | fuel + 1, n =>
    if n = 0 then some "zero"
    else
      let crore := Int.fdiv n 10000000
      let rem1 := Int.fmod n 10000000
      let lakh := Int.fdiv rem1 100000
      let rem2 := Int.fmod rem1 100000
      let thousand := Int.fdiv rem2 1000
      let rem3 := Int.fmod rem2 1000
      do
        let pc ← if crore ≠ 0 then (inrNum fuel crore).map (fun w => [w ++ " crore"])
                 else some []
        let pl ← if lakh ≠ 0 then (inrNum fuel lakh).map (fun w => [w ++ " lakh"])
                 else some []
        let pt ← if thousand ≠ 0 then (inrNum fuel thousand).map (fun w => [w ++ " thousand"])
                 else some []
        let pr := if rem3 ≠ 0 then [three_digits rem3.toNat] else []
        some (joinSp (pc ++ pl ++ pt ++ pr))

/-- Python `int(x)` on a rational: truncation toward zero. -/
def truncQ (x : ℚ) : ℤ := if 0 ≤ x then ⌊x⌋ else -⌊-x⌋

/-- Round-half-to-even to an integer, the rounding Python `round` uses. -/
def roundHalfEven (y : ℚ) : ℤ :=
  let f := ⌊y⌋
  let r := y - (f : ℚ)
  if r < 1/2 then f
  else if 1/2 < r then f + 1
  else if f % 2 = 0 then f else f + 1

/-- Python `round(x, 2)`. -/
def pyRound2 (x : ℚ) : ℚ := (roundHalfEven (x * 100) : ℚ) / 100

/-- Models `inr_words` (src/app.py 96-119) on its fallback path (the
optional `num2words` library absent, as the import guard at lines 25-28
allows): the input is the parsed amount (`none` when `float(amount)`
raised, in which case the except branch sets it to 0; a missing or falsy
amount also yields 0 via `amount or 0`).  `none` as a result models the
`RecursionError` of `_inr_number_to_words` on negative rupees. -/
def inr_words (fuel : ℕ) (amount : Option ℚ) : Option String :=
  let n : ℚ := pyRound2 (amount.getD 0)
  let rupees : ℤ := truncQ n
  let paise : ℤ := roundHalfEven ((n - (rupees : ℚ)) * 100)
  do
    let w ← inrNum fuel rupees
    let w := w ++ " rupees"
    let w ← if paise ≠ 0 then (inrNum fuel paise).map (fun p => w ++ " and " ++ p ++ " paise")
            else some w
    some (w ++ " only")

/-- `inr_words` diverges on this amount: no amount of recursion fuel makes
the fallback words routine return. -/
def inrDiverges (amount : Option ℚ) : Prop := ∀ fuel, inr_words fuel amount = none

/-- Models the font-shrink loop of `items_barcodes` (src/app.py
1548-1550): while the rendered name is wider than the cell and the font
size is above 12, a new font of size `size - 2` is loaded.  `width s` is
the rendered pixel width of the given item name at font size `s` (left
abstract: quantifying over all `width` functions covers every item name
and font metric). -/
def shrinkFont (width : ℕ → ℕ) (maxW : ℕ) (size : ℕ) : ℕ :=
  if maxW < width size ∧ 12 < size then shrinkFont width maxW (size - 2) else size
termination_by size
decreasing_by omega

/-- Structural description of the rows the purchase-order line loop
inserts. -/
def poRowsSpec : List PORaw → List PORow
  | [] => []
  | l :: ls =>
      if l.item_id = "" then poRowsSpec ls
      else
        let c := calculate_line_po (some l.qty) (some l.rate) (some l.discount)
          (some l.gst_rate)
        ⟨l.item_id, c.1, c.2.1, c.2.2.1, c.2.2.2.1,
         c.2.2.2.2.1, c.2.2.2.2.2.1, c.2.2.2.2.2.2⟩ :: poRowsSpec ls

section Lemmas

/-- A character list starts with itself followed by anything. -/
lemma hasPfx_append (p r : List Char) : hasPfx p (p ++ r) = true := by
  induction p with
  | nil => rfl
  | cons c cs ih => simpa [hasPfx] using ih

/-- The empty-string placeholder row never matches a day pattern. -/
lemma so_count_placeholder (db : List (List Char)) (d : List Char) :
    so_count_today (db ++ [[]]) d = so_count_today db d := by
  simp [so_count_today, soPfx, List.filter_append, List.filter, hasPfx]

/-- Appending a row that starts with the day pattern raises the count by
one. -/
lemma so_count_append_match (db : List (List Char)) (d rest : List Char) :
    so_count_today (db ++ [soPfx d ++ rest]) d = so_count_today db d + 1 := by
  simp [so_count_today, List.filter_append, List.filter, hasPfx_append]

/-- The sales line loop completes exactly when every submitted line has
an empty item reference, in which case it returns its accumulators
unchanged; the first non-empty line makes it raise (`TypeError` at the
shadowed `calculate_line` call). -/
lemma so_items_loop_char (ls : List SalesRaw) (t : ℚ) (rows : List SalesRow) :
    so_items_loop ls t rows =
      if ∀ l ∈ ls, l.item_id = "" then some (t, rows) else none := by
  induction ls with
  | nil => simp [so_items_loop]
  | cons l ls ih =>
      by_cases h : l.item_id = ""
      · simp [so_items_loop, h, ih, List.forall_mem_cons]
      · simp [so_items_loop, h, List.forall_mem_cons]

/-- The purchase line loop is append/add of the structural row list. -/
lemma po_items_loop_eq (ls : List PORaw) (t tt gt : ℚ) (rows : List PORow) :
    po_items_loop ls (t, tt, gt) rows =
      ((t + ((poRowsSpec ls).map PORow.net).sum,
        tt + ((poRowsSpec ls).map PORow.tax).sum,
        gt + ((poRowsSpec ls).map PORow.line_total).sum),
       rows ++ poRowsSpec ls) := by
  induction ls generalizing t tt gt rows with
  | nil => simp [po_items_loop, poRowsSpec]
  | cons l ls ih =>
      by_cases h : l.item_id = ""
      · simp [po_items_loop, poRowsSpec, h, ih]
      · simp only [po_items_loop, poRowsSpec, h, if_neg, ite_false, ih, Prod.mk.injEq]
        exact ⟨⟨by simp [List.sum_cons]; ring, by simp [List.sum_cons]; ring,
          by simp [List.sum_cons]; ring⟩, by simp⟩

/-- Each structural purchase row satisfies `line_total = net + tax`
(definitional in `calculate_line_po`). -/
lemma poRowsSpec_line_total_eq (ls : List PORaw) :
    ((poRowsSpec ls).map PORow.line_total).sum =
      ((poRowsSpec ls).map PORow.net).sum + ((poRowsSpec ls).map PORow.tax).sum := by
  induction ls with
  | nil => simp [poRowsSpec]
  | cons l ls ih =>
      by_cases h : l.item_id = ""
      · simp [poRowsSpec, h, ih]
      · simp only [poRowsSpec, h, if_neg, ite_false, List.map_cons, List.sum_cons, ih]
        have hlt : (calculate_line_po (some l.qty) (some l.rate) (some l.discount)
            (some l.gst_rate)).2.2.2.2.2.2 =
            (calculate_line_po (some l.qty) (some l.rate) (some l.discount)
              (some l.gst_rate)).2.2.2.2.1 +
            (calculate_line_po (some l.qty) (some l.rate) (some l.discount)
              (some l.gst_rate)).2.2.2.2.2.1 := rfl
        rw [hlt]
        ring

/-- The invoice line loop, when it returns, has added exactly the sum of
the line totals of the rows it appended. -/
lemma inv_items_loop_sum (ls : List SalesRaw) :
    ∀ (t : ℚ) (rows : List SalesRow) (t2 : ℚ) (rows2 : List SalesRow),
      inv_items_loop ls t rows = some (t2, rows2) →
      t2 - (rows2.map SalesRow.line_total).sum = t - (rows.map SalesRow.line_total).sum := by
  induction ls with
  | nil =>
      intro t rows t2 rows2 h
      simp only [inv_items_loop, Option.some.injEq, Prod.mk.injEq] at h
      rw [← h.1, ← h.2]
  | cons l ls ih =>
      intro t rows t2 rows2 h
      cases hq : float_or_zero l.qty with
      | none => simp [inv_items_loop, hq] at h
      | some q =>
        cases hr : float_or_zero l.rate with
        | none => simp [inv_items_loop, hq, hr] at h
        | some r =>
          cases hd : float_or_zero l.discount with
          | none => simp [inv_items_loop, hq, hr, hd] at h
          | some d =>
            simp only [inv_items_loop, hq, hr, hd, Option.some_bind] at h
            have := ih _ _ _ _ h
            rw [this]
            simp only [List.map_append, List.sum_append, List.map_cons, List.sum_cons,
              List.map_nil, List.sum_nil]
            ring

/-- The invoice line loop, when it returns, has appended one row per
submitted line, empty item references included. -/
lemma inv_items_loop_len (ls : List SalesRaw) :
    ∀ (t : ℚ) (rows : List SalesRow) (t2 : ℚ) (rows2 : List SalesRow),
      inv_items_loop ls t rows = some (t2, rows2) →
      rows2.length = rows.length + ls.length := by
  induction ls with
  | nil =>
      intro t rows t2 rows2 h
      simp only [inv_items_loop, Option.some.injEq, Prod.mk.injEq] at h
      rw [← h.2]
      simp
  | cons l ls ih =>
      intro t rows t2 rows2 h
      cases hq : float_or_zero l.qty with
      | none => simp [inv_items_loop, hq] at h
      | some q =>
        cases hr : float_or_zero l.rate with
        | none => simp [inv_items_loop, hq, hr] at h
        | some r =>
          cases hd : float_or_zero l.discount with
          | none => simp [inv_items_loop, hq, hr, hd] at h
          | some d =>
            simp only [inv_items_loop, hq, hr, hd, Option.some_bind] at h
            have := ih _ _ _ _ h
            rw [this]
            simp only [List.length_append, List.length_cons, List.length_nil]
            omega

end Lemmas

section ClaimTheorems

/-- Claim C1: for every raw input whose parsed quantity, rate are
nonnegative and whose parsed discount lies in `[0, 100]`, the sales-side
line calculator returns `line_total = qty * rate * (1 - discount/100)`;
and for every input whatsoever the returned `line_total` is nonnegative
(clamped at 0). -/
theorem sales_line_total_spec (qty rate disc : Option String) :
    0 ≤ (calculate_line qty rate disc).2.2.2 ∧
    (0 ≤ (calculate_line qty rate disc).1 →
     0 ≤ (calculate_line qty rate disc).2.1 →
     0 ≤ (calculate_line qty rate disc).2.2.1 →
     (calculate_line qty rate disc).2.2.1 ≤ 100 →
     (calculate_line qty rate disc).2.2.2 =
       (calculate_line qty rate disc).1 * (calculate_line qty rate disc).2.1 *
         (1 - (calculate_line qty rate disc).2.2.1 / 100)) := by
  simp only [calculate_line]
  refine ⟨le_max_right _ _, fun hq hr hd0 hd1 => ?_⟩
  have h : 0 ≤ safe_float qty * safe_float rate * (1 - safe_float disc / 100) := by
    apply mul_nonneg (mul_nonneg hq hr)
    have : safe_float disc / 100 ≤ 1 := by
      rw [div_le_one (by norm_num)]
      linarith
    linarith
  exact max_eq_left h

/-- Witness for C1 at the concrete form input qty "3", rate "100",
discount "10" (the specification's own example line). -/
theorem sales_line_total_spec_witness :
    (0 ≤ (calculate_line (some "3") (some "100") (some "10")).1 ∧
     0 ≤ (calculate_line (some "3") (some "100") (some "10")).2.1 ∧
     0 ≤ (calculate_line (some "3") (some "100") (some "10")).2.2.1 ∧
     (calculate_line (some "3") (some "100") (some "10")).2.2.1 ≤ 100) ∧
    (calculate_line (some "3") (some "100") (some "10")).2.2.2 =
      (calculate_line (some "3") (some "100") (some "10")).1 *
        (calculate_line (some "3") (some "100") (some "10")).2.1 *
        (1 - (calculate_line (some "3") (some "100") (some "10")).2.2.1 / 100) :=
  ⟨⟨by decide, by decide, by decide, by decide⟩,
   (sales_line_total_spec (some "3") (some "100") (some "10")).2
     (by decide) (by decide) (by decide) (by decide)⟩

/-- Claim C2: for every raw input with nonnegative parsed quantity, rate,
discount amount and gst rate, the purchase-side calculator returns exactly
`net = max(qty*rate - discount, 0)`, `tax = net*gst/100` and
`line_total = net + tax`. -/
theorem purchase_line_spec (qty rate disc gst : Option String)
    (_hq : 0 ≤ (calculate_line_po qty rate disc gst).1)
    (_hr : 0 ≤ (calculate_line_po qty rate disc gst).2.1)
    (_hd : 0 ≤ (calculate_line_po qty rate disc gst).2.2.1)
    (_hg : 0 ≤ (calculate_line_po qty rate disc gst).2.2.2.1) :
    (calculate_line_po qty rate disc gst).2.2.2.2.1 =
      max ((calculate_line_po qty rate disc gst).1 *
        (calculate_line_po qty rate disc gst).2.1 -
        (calculate_line_po qty rate disc gst).2.2.1) 0 ∧
    (calculate_line_po qty rate disc gst).2.2.2.2.2.1 =
      (calculate_line_po qty rate disc gst).2.2.2.2.1 *
        ((calculate_line_po qty rate disc gst).2.2.2.1 / 100) ∧
    (calculate_line_po qty rate disc gst).2.2.2.2.2.2 =
      (calculate_line_po qty rate disc gst).2.2.2.2.1 +
        (calculate_line_po qty rate disc gst).2.2.2.2.2.1 := by
  exact ⟨rfl, rfl, rfl⟩

/-- Witness for C2 at the concrete form input qty "2", rate "50",
discount "10", gst "5". -/
theorem purchase_line_spec_witness :
    (0 ≤ (calculate_line_po (some "2") (some "50") (some "10") (some "5")).1 ∧
     0 ≤ (calculate_line_po (some "2") (some "50") (some "10") (some "5")).2.1 ∧
     0 ≤ (calculate_line_po (some "2") (some "50") (some "10") (some "5")).2.2.1 ∧
     0 ≤ (calculate_line_po (some "2") (some "50") (some "10") (some "5")).2.2.2.1) ∧
    (calculate_line_po (some "2") (some "50") (some "10") (some "5")).2.2.2.2.2.2 =
      (calculate_line_po (some "2") (some "50") (some "10") (some "5")).2.2.2.2.1 +
        (calculate_line_po (some "2") (some "50") (some "10") (some "5")).2.2.2.2.2.1 :=
  ⟨⟨by decide, by decide, by decide, by decide⟩,
   (purchase_line_spec (some "2") (some "50") (some "10") (some "5")
     (by decide) (by decide) (by decide) (by decide)).2.2⟩

/-- Claim C10: a sales invoice saved with a missing or empty invoice
number gets `INV` followed by the Unix timestamp in whole seconds (not a
day-scoped `PREFIX+YYYYMMDD-sequence` number), and a non-empty submitted
number is stored verbatim with no further check. -/
theorem invoice_number_fallback :
    (∀ ts : ℕ, invoice_no_assign none ts = "INV" ++ String.mk (Nat.toDigits 10 ts)) ∧
    (∀ ts : ℕ, invoice_no_assign (some "") ts = "INV" ++ String.mk (Nat.toDigits 10 ts)) ∧
    (∀ (s : String) (ts : ℕ), s ≠ "" → invoice_no_assign (some s) ts = s) := by
  refine ⟨fun ts => rfl, fun ts => rfl, fun s ts hs => ?_⟩
  simp [invoice_no_assign, hs]

/-- Witness for C10 at timestamp 1760227200 and the verbatim number
"INV-CUSTOM". -/
theorem invoice_number_fallback_witness :
    invoice_no_assign none 1760227200 = "INV1760227200" ∧
    ("INV-CUSTOM" : String) ≠ "" ∧
    invoice_no_assign (some "INV-CUSTOM") 1760227200 = "INV-CUSTOM" :=
  ⟨by rw [invoice_number_fallback.1 1760227200]; decide,
   by decide,
   invoice_number_fallback.2.2 "INV-CUSTOM" 1760227200 (by decide)⟩

/-- Claim C3: a sales order created on date `d` is numbered
`SO<d>-<seq>` where `seq` is 1 plus the count of already-persisted orders
whose number starts with `SO<d>-` (the placeholder row inserted first has
an empty number and is not counted), zero-padded to five digits; in
particular two strictly sequential creations on the same date yield
`...-00001` then `...-00002`. -/
theorem salesorder_numbering_spec (db : List (List Char)) (d : List Char) :
    (salesorder_new_no db d).1 = soPfx d ++ pad5 (1 + so_count_today db d) ∧
    (so_count_today db d = 0 →
      (salesorder_new_no db d).1 = soPfx d ++ ['0', '0', '0', '0', '1'] ∧
      (salesorder_new_no (salesorder_new_no db d).2 d).1 =
        soPfx d ++ ['0', '0', '0', '0', '2']) := by
  have hfst : ∀ db2 : List (List Char), (salesorder_new_no db2 d).1 =
      soPfx d ++ pad5 (so_count_today db2 d + 1) := by
    intro db2
    show soPfx d ++ pad5 (so_count_today (db2 ++ [[]]) d + 1) = _
    rw [so_count_placeholder]
  have hp1 : pad5 1 = ['0', '0', '0', '0', '1'] := by decide
  have hp2 : pad5 2 = ['0', '0', '0', '0', '2'] := by decide
  refine ⟨by rw [hfst db, Nat.add_comm], fun h => ?_⟩
  have h1 : (salesorder_new_no db d).1 = soPfx d ++ pad5 1 := by rw [hfst db, h]
  have hsnd : (salesorder_new_no db d).2 = db ++ [soPfx d ++ pad5 1] := by
    show db ++ [soPfx d ++ pad5 (so_count_today (db ++ [[]]) d + 1)] = _
    rw [so_count_placeholder, h]
  refine ⟨by rw [h1, hp1], ?_⟩
  have hcnt2 : so_count_today (salesorder_new_no db d).2 d = 1 := by
    rw [hsnd, so_count_append_match, h]
  rw [hfst (salesorder_new_no db d).2, hcnt2, hp2]

/-- Witness for C3 on an empty table and the date 2025-10-12. -/
theorem salesorder_numbering_spec_witness :
    so_count_today [] "20251012".toList = 0 ∧
    (salesorder_new_no [] "20251012".toList).1 =
      soPfx "20251012".toList ++ ['0', '0', '0', '0', '1'] ∧
    (salesorder_new_no (salesorder_new_no [] "20251012".toList).2 "20251012".toList).1 =
      soPfx "20251012".toList ++ ['0', '0', '0', '0', '2'] :=
  ⟨rfl,
   ((salesorder_numbering_spec [] "20251012".toList).2 rfl).1,
   ((salesorder_numbering_spec [] "20251012".toList).2 rfl).2⟩

/-- Claim C4: after a document create or edit completes, the persisted
header's `grand_total` equals the sum of `line_total` over the persisted
line rows (for sales orders, purchase orders and sales invoices alike),
and for purchase orders `grand_total` additionally equals
`total + tax_total`; the totals never drift from the persisted lines.
A sales-order save completes only when every submitted line was skipped:
any non-empty item reference raises `TypeError` at the shadowed
`calculate_line` call (see `so_items_loop`) before anything is committed,
so the conditional is stated over the completing runs. -/
theorem document_totals_invariant :
    (∀ (lines : List SalesRaw) (hdr : SOHeader) (rows : List SalesRow),
        salesorder_save lines = some (hdr, rows) →
        hdr.grand_total = (rows.map SalesRow.line_total).sum) ∧
    (∀ lines : List PORaw,
        (po_save lines).1.grand_total =
          (((po_save lines).2).map PORow.line_total).sum ∧
        (po_save lines).1.grand_total =
          (po_save lines).1.total + (po_save lines).1.tax_total) ∧
    (∀ (lines : List SalesRaw) (hdr : SOHeader) (rows : List SalesRow),
        save_invoice_lines lines = some (hdr, rows) →
        hdr.grand_total = (rows.map SalesRow.line_total).sum) := by
  refine ⟨fun lines hdr rows h => ?_, fun lines => ?_, fun lines hdr rows h => ?_⟩
  · by_cases hc : ∀ l ∈ lines, l.item_id = ""
    · have hv : salesorder_save lines = some (⟨0, 0⟩, []) := by
        unfold salesorder_save
        rw [so_items_loop_char, if_pos hc]
        rfl
      rw [hv] at h
      obtain ⟨hh, hr⟩ := Prod.ext_iff.mp (Option.some.inj h)
      subst hh
      subst hr
      simp
    · have hv : salesorder_save lines = none := by
        unfold salesorder_save
        rw [so_items_loop_char, if_neg hc]
        rfl
      rw [hv] at h
      exact Option.noConfusion h
  · simp only [po_save, po_items_loop_eq]
    exact ⟨by simp, by simpa using poRowsSpec_line_total_eq lines⟩
  · cases hl : inv_items_loop lines 0 [] with
    | none => simp [save_invoice_lines, hl] at h
    | some pr =>
      obtain ⟨t, rows0⟩ := pr
      have hv : save_invoice_lines lines = some (⟨t, t⟩, rows0) := by
        simp [save_invoice_lines, hl]
      rw [hv] at h
      obtain ⟨hh, hr⟩ := Prod.ext_iff.mp (Option.some.inj h)
      subst hh
      subst hr
      have hsum := inv_items_loop_sum lines 0 [] t rows0 hl
      simp only [List.map_nil, List.sum_nil, sub_zero] at hsum
      show t = (List.map SalesRow.line_total rows0).sum
      linarith

/-- Witness for C4's sales-order and invoice clauses at completing runs
(empty line lists). -/
theorem document_totals_invariant_witness :
    (salesorder_save [] = some (⟨0, 0⟩, []) ∧
      (SOHeader.mk 0 0).grand_total = (([] : List SalesRow).map SalesRow.line_total).sum) ∧
    (save_invoice_lines [] = some (⟨0, 0⟩, []) ∧
      (SOHeader.mk 0 0).grand_total = (([] : List SalesRow).map SalesRow.line_total).sum) :=
  ⟨⟨rfl, document_totals_invariant.1 [] ⟨0, 0⟩ [] rfl⟩,
   ⟨rfl, document_totals_invariant.2.2 [] ⟨0, 0⟩ [] rfl⟩⟩

/-- Counterexample to C5 as stated: in the invoice save path a line whose
quantity uses a comma decimal separator makes the whole creation raise
(`none`), instead of being coerced to `0.0`. -/
theorem invoice_parse_comma_raises :
    inv_items_loop [⟨"1", "3,5", "1", "0"⟩] 0 [] = none := by decide

/-- Claim C5 amended: `safe_float` — applied by the purchase-side
`calculate_line` to each of a line's four numeric fields — tolerates
`None`, blank input and a comma decimal separator and coerces every parse
failure to `0.0`; the sales-invoice path parses with bare `float(x or 0)`,
which only coerces the empty string and raises on any other unparseable
input such as a comma decimal; and the sales-order create/edit paths
never reach a numeric parse on a non-empty line, because their
three-argument `calculate_line` call resolves to the later four-parameter
purchase definition and raises `TypeError` first. -/
theorem numeric_parsing_amended :
    safe_float none = 0 ∧
    (∀ s : String, trimChars s.toList = [] → safe_float (some s) = 0) ∧
    (∀ s : String, pyFloat (commaToDot s) = none → safe_float (some s) = 0) ∧
    safe_float (some "3,5") = 7 / 2 ∧
    (∀ qty rate disc gst : Option String,
        (calculate_line_po qty rate disc gst).1 = safe_float qty ∧
        (calculate_line_po qty rate disc gst).2.1 = safe_float rate ∧
        (calculate_line_po qty rate disc gst).2.2.1 = safe_float disc ∧
        (calculate_line_po qty rate disc gst).2.2.2.1 = safe_float gst) ∧
    float_or_zero "" = some 0 ∧
    float_or_zero "3,5" = none ∧
    (∀ (l : SalesRaw) (ls : List SalesRaw) (t : ℚ) (rows : List SalesRow),
        l.item_id ≠ "" → so_items_loop (l :: ls) t rows = none) := by
  refine ⟨rfl, fun s hs => ?_, fun s hs => ?_, ?_,
    fun qty rate disc gst => ⟨rfl, rfl, rfl, rfl⟩, rfl, by decide,
    fun l ls t rows h => by simp [so_items_loop, h]⟩
  · show (if trimChars s.toList = [] then (0 : ℚ) else (pyFloat (commaToDot s)).getD 0) = 0
    rw [if_pos hs]
  · show (if trimChars s.toList = [] then (0 : ℚ) else (pyFloat (commaToDot s)).getD 0) = 0
    rw [hs]
    simp
  · have h : safe_float (some "3,5") = Rat.divInt 35 10 := by decide
    rw [h]; norm_num [Rat.divInt]

/-- Witness for C5's amended clauses at blank and unparseable inputs and
at a concrete non-empty sales-order line. -/
theorem numeric_parsing_amended_witness :
    (trimChars "  ".toList = [] ∧ safe_float (some "  ") = 0) ∧
    (pyFloat (commaToDot "abc") = none ∧ safe_float (some "abc") = 0) ∧
    ((⟨"1", "3,5", "1", "0"⟩ : SalesRaw).item_id ≠ "" ∧
      so_items_loop [⟨"1", "3,5", "1", "0"⟩] 0 [] = none) :=
  ⟨⟨by decide, numeric_parsing_amended.2.1 "  " (by decide)⟩,
   ⟨by decide, numeric_parsing_amended.2.2.1 "abc" (by decide)⟩,
   ⟨by decide,
    numeric_parsing_amended.2.2.2.2.2.2.2 ⟨"1", "3,5", "1", "0"⟩ [] 0 [] (by decide)⟩⟩

/-- Counterexample to C6 as stated: in the invoice save path a submitted
line with an empty item reference is not skipped; it is persisted as a row
(with empty reference) and its amount is added to the totals. -/
theorem invoice_empty_item_persisted :
    inv_items_loop [⟨"", "1", "10", "0"⟩] 0 [] =
      some (10, [⟨"", 1, 10, 0, 10⟩]) := by
  have h1 : float_or_zero "1" = some (Rat.divInt 1 1) := by decide
  have h10 : float_or_zero "10" = some (Rat.divInt 10 1) := by decide
  have h0 : float_or_zero "0" = some (Rat.divInt 0 1) := by decide
  simp only [inv_items_loop, h1, h10, h0, Option.some_bind]
  norm_num [Rat.divInt, max_def]

/-- Claim C6 amended: in sales-order and purchase-order create/edit the
line loop silently skips a line whose item reference is empty — no
persisted row, no contribution to the totals, no error — before any
calculator call; in the sales-order paths a line with a non-empty item
reference is then not calculated and persisted but raises `TypeError` at
the shadowed `calculate_line` call; and in the sales-invoice save path
every submitted line is persisted, one row per line, empty item
references included. -/
theorem empty_item_skip_amended :
    (∀ (l : SalesRaw) (ls : List SalesRaw) (t : ℚ) (rows : List SalesRow),
        l.item_id = "" → so_items_loop (l :: ls) t rows = so_items_loop ls t rows) ∧
    (∀ (l : PORaw) (ls : List PORaw) (acc : ℚ × ℚ × ℚ) (rows : List PORow),
        l.item_id = "" → po_items_loop (l :: ls) acc rows = po_items_loop ls acc rows) ∧
    (∀ (l : SalesRaw) (ls : List SalesRaw) (t : ℚ) (rows : List SalesRow),
        l.item_id ≠ "" → so_items_loop (l :: ls) t rows = none) ∧
    (∀ (lines : List SalesRaw) (t2 : ℚ) (rows2 : List SalesRow),
        inv_items_loop lines 0 [] = some (t2, rows2) → rows2.length = lines.length) :=
  ⟨fun l ls t rows h => by simp [so_items_loop, h],
   fun l ls acc rows h => by simp [po_items_loop, h],
   fun l ls t rows h => by simp [so_items_loop, h],
   fun lines t2 rows2 h => by simpa using inv_items_loop_len lines 0 [] t2 rows2 h⟩

/-- Witness for C6's amended clauses at concrete empty- and
non-empty-reference lines. -/
theorem empty_item_skip_amended_witness :
    ((⟨"", "1", "2", "0"⟩ : SalesRaw).item_id = "" ∧
      so_items_loop [⟨"", "1", "2", "0"⟩] 0 [] = some (0, [])) ∧
    ((⟨"", "1", "2", "0", "5"⟩ : PORaw).item_id = "" ∧
      po_items_loop [⟨"", "1", "2", "0", "5"⟩] (0, 0, 0) [] = ((0, 0, 0), [])) ∧
    ((⟨"9", "1", "2", "0"⟩ : SalesRaw).item_id ≠ "" ∧
      so_items_loop [⟨"9", "1", "2", "0"⟩] 0 [] = none) ∧
    (inv_items_loop [] 0 [] = some (0, []) ∧
      ([] : List SalesRow).length = ([] : List SalesRaw).length) :=
  ⟨⟨rfl, by rw [empty_item_skip_amended.1 _ [] 0 [] rfl]; rfl⟩,
   ⟨rfl, by rw [empty_item_skip_amended.2.1 _ [] (0, 0, 0) [] rfl]; rfl⟩,
   ⟨by decide, empty_item_skip_amended.2.2.1 ⟨"9", "1", "2", "0"⟩ [] 0 [] (by decide)⟩,
   ⟨rfl, empty_item_skip_amended.2.2.2 [] 0 [] rfl⟩⟩

/-- The plain-ceiling page count equals the rational ceiling. -/
lemma supplier_pages_eq_ceil (total pp : ℕ) (hpp : 0 < pp) :
    supplier_pages total pp = ⌈(total : ℚ) / (pp : ℚ)⌉ := by
  unfold supplier_pages
  rw [Int.fdiv_eq_ediv _ (by positivity)]
  have hp : (0 : ℤ) < (pp : ℤ) := by exact_mod_cast hpp
  have hmod := Int.ediv_add_emod ((total : ℤ) + (pp : ℤ) - 1) (pp : ℤ)
  have hmn : 0 ≤ ((total : ℤ) + (pp : ℤ) - 1) % (pp : ℤ) := Int.emod_nonneg _ (by omega)
  have hml : ((total : ℤ) + (pp : ℤ) - 1) % (pp : ℤ) < (pp : ℤ) :=
    Int.emod_lt_of_pos _ hp
  set q := ((total : ℤ) + (pp : ℤ) - 1) / (pp : ℤ) with hqdef
  have hub : (total : ℤ) ≤ q * (pp : ℤ) := by nlinarith [hmod, hml]
  have hlb : (q - 1) * (pp : ℤ) < (total : ℤ) := by nlinarith [hmod, hmn]
  symm
  rw [Int.ceil_eq_iff]
  have hppQ : (0 : ℚ) < (pp : ℚ) := by positivity
  constructor
  · rw [lt_div_iff₀ hppQ]
    exact_mod_cast hlb
  · rw [div_le_iff₀ hppQ]
    exact_mod_cast hub

/-- The `max(1, -(-total // per_page))` page count equals the rational
ceiling clamped below at 1. -/
lemma customer_pages_eq_ceil (total pp : ℕ) (hpp : 0 < pp) :
    customer_pages total pp = max 1 ⌈(total : ℚ) / (pp : ℚ)⌉ := by
  unfold customer_pages
  congr 1
  rw [Int.fdiv_eq_ediv _ (by positivity)]
  have h1 : ⌈(total : ℚ) / (pp : ℚ)⌉ = -⌊-((total : ℚ) / (pp : ℚ))⌋ := by
    rw [Int.floor_neg, neg_neg]
  have h2 : -((total : ℚ) / (pp : ℚ)) = ((-(total : ℤ) : ℤ) : ℚ) / ((pp : ℕ) : ℚ) := by
    push_cast
    ring
  rw [h1, h2, Rat.floor_intCast_div_natCast]

/-- A page strictly beyond the ceiling page count starts at or past the
end of the row list. -/
lemma fetch_page_beyond {α : Type} (rows : List α) (pp : ℕ) (page : ℤ)
    (hpp : 0 < pp) (hpage : ⌈((rows.length : ℕ) : ℚ) / (pp : ℚ)⌉ < page) :
    fetch_page rows page pp = [] := by
  have hppQ : (0 : ℚ) < (pp : ℚ) := by positivity
  have hceil : ((rows.length : ℕ) : ℚ) / (pp : ℚ) ≤ (⌈((rows.length : ℕ) : ℚ) / (pp : ℚ)⌉ : ℚ) :=
    Int.le_ceil _
  have hlen : (rows.length : ℤ) ≤ ⌈((rows.length : ℕ) : ℚ) / (pp : ℚ)⌉ * (pp : ℤ) := by
    have := (div_le_iff₀ hppQ).mp hceil
    exact_mod_cast this
  have hoff : (rows.length : ℤ) ≤ (page - 1) * (pp : ℤ) := by
    have hp1 : ⌈((rows.length : ℕ) : ℚ) / (pp : ℚ)⌉ ≤ page - 1 := by omega
    have : ⌈((rows.length : ℕ) : ℚ) / (pp : ℚ)⌉ * (pp : ℤ) ≤ (page - 1) * (pp : ℤ) := by
      apply mul_le_mul_of_nonneg_right hp1 (by positivity)
    omega
  unfold fetch_page
  have hdrop : rows.length ≤ (max ((page - 1) * (pp : ℤ)) 0).toNat := by omega
  rw [List.drop_eq_nil_of_le hdrop, List.take_nil]

/-- Claim C7 amended: with a positive page size, the customer and item
listings compute `max(1, ceil(total/per_page))`, but the supplier,
sales-order, invoice and purchase-order listings compute the plain
`ceil(total/per_page)`, which is 0 (not 1) when no row matches.  Rows are
fetched at offset `(page-1)*per_page`; a page beyond the page count
yields zero rows with no error, while a page below 1 produces a negative
offset that SQLite clamps to 0, returning the first page of rows rather
than an empty page. -/
theorem pagination_amended (total pp : ℕ) (hpp : 0 < pp) :
    customer_pages total pp = max 1 ⌈(total : ℚ) / (pp : ℚ)⌉ ∧
    supplier_pages total pp = ⌈(total : ℚ) / (pp : ℚ)⌉ ∧
    (∀ (rows : List ℕ) (page : ℤ), rows.length = total →
        supplier_pages total pp < page → fetch_page rows page pp = []) ∧
    (∀ rows : List ℕ, rows ≠ [] → fetch_page rows 0 pp ≠ []) := by
  refine ⟨customer_pages_eq_ceil total pp hpp, supplier_pages_eq_ceil total pp hpp,
    fun rows page hlen hpage => ?_, fun rows hne => ?_⟩
  · apply fetch_page_beyond rows pp page hpp
    rw [hlen]
    rw [supplier_pages_eq_ceil total pp hpp] at hpage
    exact hpage
  · unfold fetch_page
    cases rows with
    | nil => exact absurd rfl hne
    | cons x xs =>
        have hneg : ((0 : ℤ) - 1) * (pp : ℤ) ≤ 0 := by
          have h' : ((0 : ℤ) - 1) * (pp : ℤ) = -(pp : ℤ) := by ring
          rw [h']
          omega
        rw [max_eq_right hneg]
        simp only [Int.toNat_zero, List.drop_zero]
        cases pp with
        | zero => exact absurd hpp (by omega)
        | succ n => simp [List.take_succ_cons]

/-- Counterexample to C7 as stated: the supplier listing's page count at
zero matching rows and page size 20 is 0, not the claimed minimum 1; and
requesting page 0 of a one-row listing returns that row, not an empty
page. -/
theorem pagination_counterexample :
    supplier_pages 0 20 = 0 ∧ supplier_pages 0 20 ≠ 1 ∧
    fetch_page [(5 : ℕ)] 0 20 = [5] := by
  refine ⟨by decide, by decide, ?_⟩
  unfold fetch_page
  decide

/-- Witness for C7's amended statement at total 0, page size 20. -/
theorem pagination_amended_witness :
    (0 : ℕ) < 20 ∧ supplier_pages 0 20 = ⌈((0 : ℕ) : ℚ) / ((20 : ℕ) : ℚ)⌉ :=
  ⟨by decide, (pagination_amended 0 20 (by decide)).2.1⟩

/-- `_inr_number_to_words` never returns on a negative argument: the crore
quotient of a negative number under floored division stays negative, so
the recursion never reaches a base case (Python raises `RecursionError`). -/
lemma inrNum_neg : ∀ (fuel : ℕ) (n : ℤ), n < 0 → inrNum fuel n = none := by
  intro fuel
  induction fuel with
  | zero => intro n _; rfl
  | succ k ih =>
      intro n hn
      have hne : ¬(n = 0) := by omega
      have hcr : Int.fdiv n 10000000 < 0 := by
        rw [Int.fdiv_eq_ediv _ (by norm_num)]
        omega
      have hcrne : Int.fdiv n 10000000 ≠ 0 := by omega
      simp only [inrNum, if_neg hne]
      rw [if_pos hcrne, ih _ hcr]
      simp

/-- `_inr_number_to_words 0` is the word `zero` (with any fuel left). -/
lemma inrNum_zero (fuel : ℕ) : inrNum (fuel + 1) 0 = some "zero" := by
  simp [inrNum]

/-- `round` is the identity on an integer times 1/100 scale. -/
lemma roundHalfEven_zero : roundHalfEven 0 = 0 := by
  unfold roundHalfEven
  norm_num

/-- `round(x, 2)` is the identity on integers. -/
lemma pyRound2_intCast (z : ℤ) : pyRound2 ((z : ℚ)) = (z : ℚ) := by
  unfold pyRound2 roundHalfEven
  have h1 : ((z : ℚ)) * 100 = ((z * 100 : ℤ) : ℚ) := by push_cast; ring
  rw [h1, Int.floor_intCast]
  norm_num

/-- `int(x)` is the identity on integers. -/
lemma truncQ_intCast (z : ℤ) : truncQ ((z : ℚ)) = z := by
  unfold truncQ
  by_cases h : (0 : ℚ) ≤ (z : ℚ)
  · rw [if_pos h, Int.floor_intCast]
  · rw [if_neg h]
    have h2 : -((z : ℚ)) = ((-z : ℤ) : ℚ) := by push_cast; ring
    rw [h2, Int.floor_intCast]
    ring

/-- On an exact integer amount the fallback `inr_words` is the whole-rupee
words with the `rupees ... only` wrapper (the paise branch is skipped). -/
lemma inr_words_intCast (fuel : ℕ) (z : ℤ) :
    inr_words fuel (some (z : ℚ)) =
      (inrNum fuel z).bind (fun w => some (w ++ " rupees" ++ " only")) := by
  simp only [inr_words, Option.getD_some]
  rw [pyRound2_intCast, truncQ_intCast]
  have hp : (((z : ℚ)) - ((z : ℤ) : ℚ)) * 100 = 0 := by ring
  rw [hp, roundHalfEven_zero]
  simp

/-- The fallback `inr_words` on amount `-5` returns for no amount of
fuel. -/
lemma inr_words_neg5_eval (fuel : ℕ) : inr_words fuel (some (-5)) = none := by
  have h : ((-5 : ℚ)) = (((-5 : ℤ)) : ℚ) := by norm_num
  rw [h, inr_words_intCast, inrNum_neg fuel (-5) (by norm_num)]
  rfl

/-- Counterexample to C8 as stated: a negative amount is not treated as 0;
on the fallback path the recursive words routine diverges on `-5`
(a `RecursionError` in Python), so no `zero rupees only` phrase is ever
produced. -/
theorem inr_words_negative_diverges : inrDiverges (some (-5)) :=
  fun fuel => inr_words_neg5_eval fuel

/-- Claim C8 amended: `inr_words 0 = "zero rupees only"`, and unparseable
(or missing/falsy) input is coerced to 0 and produces the same zero
phrase; but a negative amount is not treated as 0 — the fallback words
routine never returns on negative rupees. -/
theorem inr_words_amended :
    (∀ fuel : ℕ, 0 < fuel →
        inr_words fuel none = some "zero rupees only" ∧
        inr_words fuel (some 0) = some "zero rupees only") ∧
    inrDiverges (some (-5)) := by
  constructor
  · intro fuel hf
    cases fuel with
    | zero => omega
    | succ k =>
        have hz : inr_words (k + 1) (some 0) = some "zero rupees only" := by
          have h0 : ((0 : ℚ)) = (((0 : ℤ)) : ℚ) := by norm_num
          rw [h0, inr_words_intCast, inrNum_zero]
          rfl
        refine ⟨?_, hz⟩
        have hnone : inr_words (k + 1) none = inr_words (k + 1) (some 0) := rfl
        rw [hnone, hz]
  · exact fun fuel => inr_words_neg5_eval fuel

/-- Witness for C8's amended statement at fuel 1. -/
theorem inr_words_amended_witness :
    (0 : ℕ) < 1 ∧ inr_words 1 none = some "zero rupees only" :=
  ⟨by decide, (inr_words_amended.1 1 (by decide)).1⟩

/-- One unfolding of the font-shrink loop. -/
lemma shrinkFont_unfold (width : ℕ → ℕ) (maxW size : ℕ) :
    shrinkFont width maxW size =
      if maxW < width size ∧ 12 < size then shrinkFont width maxW (size - 2) else size := by
  rw [shrinkFont]

/-- From an even start at or above the floor, the loop never goes below
12. -/
lemma shrink_lower (width : ℕ → ℕ) (maxW : ℕ) :
    ∀ size, 12 ≤ size → size % 2 = 0 → 12 ≤ shrinkFont width maxW size := by
  intro size
  induction size using Nat.strong_induction_on with
  | _ s ih =>
      intro h12 hev
      rw [shrinkFont_unfold]
      by_cases hc : maxW < width s ∧ 12 < s
      · rw [if_pos hc]
        exact ih (s - 2) (by omega) (by omega) (by omega)
      · rw [if_neg hc]
        exact h12

/-- Starting from the initial font size 18, the loop stops at 18, 16, 14
or 12. -/
lemma shrink18_cases (width : ℕ → ℕ) (maxW : ℕ) :
    shrinkFont width maxW 18 = 18 ∨ shrinkFont width maxW 18 = 16 ∨
    shrinkFont width maxW 18 = 14 ∨ shrinkFont width maxW 18 = 12 := by
  rw [shrinkFont_unfold]
  by_cases h18 : maxW < width 18 ∧ 12 < 18
  · rw [if_pos h18]
    norm_num
    rw [shrinkFont_unfold]
    by_cases h16 : maxW < width 16 ∧ 12 < 16
    · rw [if_pos h16]
      norm_num
      rw [shrinkFont_unfold]
      by_cases h14 : maxW < width 14 ∧ 12 < 14
      · rw [if_pos h14]
        norm_num
        rw [shrinkFont_unfold]
        have h12 : ¬(maxW < width 12 ∧ 12 < 12) := by omega
        rw [if_neg h12]
        tauto
      · rw [if_neg h14]
        tauto
    · rw [if_neg h16]
      tauto
  · rw [if_neg h18]
    tauto

/-- Claim C9: the barcode-sheet font-shrink loop terminates for every item
name (every width function): whenever the loop condition holds the next
size is strictly smaller, and from the initial size 18 the result is one
of 18, 16, 14, 12 — never below the fixed floor 12. -/
theorem font_shrink_spec :
    (∀ (width : ℕ → ℕ) (maxW size : ℕ), maxW < width size ∧ 12 < size →
        shrinkFont width maxW size = shrinkFont width maxW (size - 2) ∧ size - 2 < size) ∧
    (∀ (width : ℕ → ℕ) (maxW : ℕ),
        12 ≤ shrinkFont width maxW 18 ∧
        (shrinkFont width maxW 18 = 18 ∨ shrinkFont width maxW 18 = 16 ∨
         shrinkFont width maxW 18 = 14 ∨ shrinkFont width maxW 18 = 12)) := by
  constructor
  · intro width maxW size hc
    exact ⟨by rw [shrinkFont_unfold, if_pos hc], by omega⟩
  · intro width maxW
    exact ⟨shrink_lower width maxW 18 (by norm_num) (by norm_num),
      shrink18_cases width maxW⟩

/-- Witness for C9 at a constant width function that never fits. -/
theorem font_shrink_spec_witness :
    ((0 : ℕ) < (fun _ : ℕ => 100) 18 ∧ 12 < 18) ∧
    (shrinkFont (fun _ : ℕ => 100) 0 18 = shrinkFont (fun _ : ℕ => 100) 0 (18 - 2) ∧
      18 - 2 < 18) :=
  ⟨⟨by decide, by decide⟩,
   font_shrink_spec.1 (fun _ : ℕ => 100) 0 18 ⟨by decide, by decide⟩⟩

end ClaimTheorems

end FloraBI
